import Mathlib

/-!
Verification of the PhysicsKit vehicle-dynamics core.

Shallow embedding of the Python sources under `physicskit/`:
`core/world.py`, `core/vector.py`, `core/rigid_body.py`,
`vehicle/steering.py`, `vehicle/suspension.py`, `vehicle/drivetrain.py`,
`tire/relaxation.py`, `tire/pacejka.py`, `tire/combined.py`.

Python floats are modelled as exact numbers: the purely arithmetic
fixed-timestep world loop over `ℚ` (so concrete runs are decidable), all
force/geometry computations over `ℝ` (they use `sin`, `atan`, `exp`).
-/

namespace PhysicsKit

/-! ### World (`core/world.py`)

The vehicle type is abstract: `World` is parameterized by the vehicle
state type `V` and `Car.physics_step` by a function `vstep : V → ℚ → V`.
The cap `_max_steps_per_frame = 20` is a dataclass default never changed
anywhere in the repository, so it is inlined as the literal 20. -/

structure World (V : Type) where
  dt : ℚ
  time : ℚ
  gravity : ℚ
  vehicles : List V
  accumulator : ℚ
deriving DecidableEq

/-- `World.step`: one fixed tick; runs `physics_step dt` on every vehicle
and advances `time` by `dt`. -/
def World.step {V : Type} (vstep : V → ℚ → V) (w : World V) : World V :=
  { w with
    vehicles := w.vehicles.map (fun v => vstep v w.dt)
    time := w.time + w.dt }

/-- The `while self._accumulator >= self.dt and steps < self._max_steps_per_frame`
loop of `World.step_fixed`, with `fuel = 20 - steps` making the step cap
structural. -/
def stepFixedLoop {V : Type} (vstep : V → ℚ → V) :
    Nat → World V → Nat → World V × Nat
  | 0, w, steps => (w, steps)
  | fuel + 1, w, steps =>
    if w.dt ≤ w.accumulator then
      stepFixedLoop vstep fuel
        { w.step vstep with accumulator := w.accumulator - w.dt } (steps + 1)
    else
      (w, steps)

/-- `World.step_fixed(real_dt)`: accumulate elapsed time, then run fixed
steps while the accumulator allows, capped at 20. Returns the final world
and the number of steps taken. -/
def World.step_fixed {V : Type} (vstep : V → ℚ → V) (w : World V)
    (real_dt : ℚ) : World V × Nat :=
  stepFixedLoop vstep 20 { w with accumulator := w.accumulator + real_dt } 0

/-- `World.get_interpolation_alpha`: `accumulator / dt` when `dt > 0`, else 0. -/
def World.get_interpolation_alpha {V : Type} (w : World V) : ℚ :=
  if 0 < w.dt then w.accumulator / w.dt else 0

/-- A fresh world with the default 1 ms timestep and no vehicles. -/
def freshWorld : World Unit :=
  { dt := 1 / 1000, time := 0, gravity := 981 / 100, vehicles := [], accumulator := 0 }

theorem stepFixedLoop_le {V : Type} (vstep : V → ℚ → V) :
    ∀ (fuel : Nat) (w : World V) (steps : Nat),
      (stepFixedLoop vstep fuel w steps).2 ≤ steps + fuel := by
  intro fuel
  induction fuel with
  | zero => intro w steps; simp [stepFixedLoop]
  | succ n ih =>
    intro w steps
    rw [stepFixedLoop]
    by_cases hc : w.dt ≤ w.accumulator
    · rw [if_pos hc]
      calc (stepFixedLoop vstep n _ (steps + 1)).2 ≤ (steps + 1) + n := ih _ _
        _ = steps + (n + 1) := by omega
    · rw [if_neg hc]
      omega

theorem stepFixedLoop_dt {V : Type} (vstep : V → ℚ → V) :
    ∀ (fuel : Nat) (w : World V) (steps : Nat),
      (stepFixedLoop vstep fuel w steps).1.dt = w.dt := by
  intro fuel
  induction fuel with
  | zero => intro w steps; simp [stepFixedLoop]
  | succ n ih =>
    intro w steps
    rw [stepFixedLoop]
    by_cases hc : w.dt ≤ w.accumulator
    · rw [if_pos hc, ih]; rfl
    · rw [if_neg hc]

theorem stepFixedLoop_acc_nonneg {V : Type} (vstep : V → ℚ → V) :
    ∀ (fuel : Nat) (w : World V) (steps : Nat), 0 ≤ w.accumulator →
      0 ≤ (stepFixedLoop vstep fuel w steps).1.accumulator := by
  intro fuel
  induction fuel with
  | zero => intro w steps h; simpa [stepFixedLoop] using h
  | succ n ih =>
    intro w steps h
    rw [stepFixedLoop]
    by_cases hc : w.dt ≤ w.accumulator
    · rw [if_pos hc]
      exact ih _ _ (by simp only [World.step]; linarith)
    · rw [if_neg hc]
      exact h

theorem stepFixedLoop_exit {V : Type} (vstep : V → ℚ → V) :
    ∀ (fuel : Nat) (w : World V) (steps : Nat),
      (stepFixedLoop vstep fuel w steps).2 < steps + fuel →
      (stepFixedLoop vstep fuel w steps).1.accumulator <
        (stepFixedLoop vstep fuel w steps).1.dt := by
  intro fuel
  induction fuel with
  | zero => intro w steps h; simp [stepFixedLoop] at h
  | succ n ih =>
    intro w steps h
    rw [stepFixedLoop] at h ⊢
    by_cases hc : w.dt ≤ w.accumulator
    · rw [if_pos hc] at h ⊢
      exact ih _ _ (by omega)
    · rw [if_neg hc] at h ⊢
      exact lt_of_not_le hc

/-- A world whose configured timestep is non-positive (`dt = 0`), holding one
vehicle whose state counts how many times it has been stepped. -/
def zeroDtWorld : World Nat :=
  { dt := 0, time := 0, gravity := 981 / 100, vehicles := [0], accumulator := 0 }

/-- C2: for every `real_dt` and every accumulator state, `step_fixed` returns
at most 20 steps; and on a fresh world with `dt = 1 ms`, a single call
`step_fixed(10.0)` returns exactly 20 and advances `time` by exactly `20·dt`. -/
theorem step_fixed_cap_and_spiral :
    (∀ (V : Type) (vstep : V → ℚ → V) (w : World V) (real_dt : ℚ),
        (World.step_fixed vstep w real_dt).2 ≤ 20)
    ∧ (World.step_fixed (fun v _ => v) freshWorld 10).2 = 20
    ∧ (World.step_fixed (fun v _ => v) freshWorld 10).1.time
        = freshWorld.time + 20 * freshWorld.dt := by
  refine ⟨fun V vstep w real_dt => ?_, ?_⟩
  · simpa using stepFixedLoop_le vstep 20 _ 0
  · norm_num [World.step_fixed, stepFixedLoop, World.step, freshWorld]

/-- C3 counterexample: a reachable world state (fresh world, one
`step_fixed(10.0)` call hitting the 20-step cap) whose interpolation alpha is
9980, far outside `[0, 1)`. -/
theorem interpolation_alpha_not_in_unit_interval :
    (World.step_fixed (fun v _ => v) freshWorld 10).1.get_interpolation_alpha = 9980
    ∧ ¬ (World.step_fixed (fun v _ => v) freshWorld 10).1.get_interpolation_alpha < 1 := by
  norm_num [World.step_fixed, stepFixedLoop, World.step, freshWorld,
    World.get_interpolation_alpha]

/-- C3 amended: in every state reached by a `step_fixed` call with
non-negative `real_dt` from a state with `dt > 0` and a non-negative
accumulator, if the call did not hit the 20-step cap then the interpolation
alpha lies in `[0, 1)`. -/
theorem interpolation_alpha_range {V : Type} (vstep : V → ℚ → V)
    (w : World V) (real_dt : ℚ) (hdt : 0 < w.dt) (hacc : 0 ≤ w.accumulator)
    (hrdt : 0 ≤ real_dt) (hcap : (World.step_fixed vstep w real_dt).2 < 20) :
    0 ≤ (World.step_fixed vstep w real_dt).1.get_interpolation_alpha
    ∧ (World.step_fixed vstep w real_dt).1.get_interpolation_alpha < 1 := by
  have hdt' : (World.step_fixed vstep w real_dt).1.dt = w.dt :=
    stepFixedLoop_dt vstep 20 _ 0
  have hacc' : 0 ≤ (World.step_fixed vstep w real_dt).1.accumulator :=
    stepFixedLoop_acc_nonneg vstep 20 _ 0 (by simpa using add_nonneg hacc hrdt)
  have hex : (World.step_fixed vstep w real_dt).1.accumulator
      < (World.step_fixed vstep w real_dt).1.dt :=
    stepFixedLoop_exit vstep 20 _ 0 (by simpa using hcap)
  have hpos : 0 < (World.step_fixed vstep w real_dt).1.dt := hdt' ▸ hdt
  unfold World.get_interpolation_alpha
  rw [if_pos hpos]
  exact ⟨div_nonneg hacc' hpos.le, (div_lt_one hpos).mpr hex⟩

/-- C3 amended, witness: a fresh world stepped with `real_dt = 0.0005`
(below `dt`) takes 0 steps and reports alpha `0.5 ∈ [0, 1)`. -/
theorem interpolation_alpha_range_witness :
    0 ≤ (World.step_fixed (fun (v : Unit) _ => v) freshWorld (1/2000)).1.get_interpolation_alpha
    ∧ (World.step_fixed (fun (v : Unit) _ => v) freshWorld (1/2000)).1.get_interpolation_alpha < 1 :=
  interpolation_alpha_range (fun v _ => v) freshWorld (1/2000)
    (by norm_num [freshWorld]) (by norm_num [freshWorld]) (by norm_num)
    (by norm_num [World.step_fixed, stepFixedLoop, World.step, freshWorld])

/-- C4 counterexample: on a world configured with `dt = 0`, `step_fixed(0.0)`
is not a no-op returning 0 steps: it runs the full 20-step cap and steps its
vehicle 20 times. -/
theorem step_fixed_nonpositive_dt_not_noop :
    (World.step_fixed (fun (v : Nat) _ => v + 1) zeroDtWorld 0).2 = 20
    ∧ (World.step_fixed (fun (v : Nat) _ => v + 1) zeroDtWorld 0).1.vehicles = [20]
    ∧ ¬ ((World.step_fixed (fun (v : Nat) _ => v + 1) zeroDtWorld 0).2 = 0) := by
  norm_num [World.step_fixed, stepFixedLoop, World.step, zeroDtWorld]

/-- C4 amended: for a world with `dt > 0` whose accumulator is below `dt`,
calling `step_fixed` with `real_dt ≤ 0` returns 0 steps, steps no vehicle and
leaves `time` unchanged; the only state change is the accumulator absorbing
`real_dt` (so `real_dt = 0` is a strict no-op). -/
theorem step_fixed_nonpositive_real_dt_noop {V : Type} (vstep : V → ℚ → V)
    (w : World V) (real_dt : ℚ) (hrdt : real_dt ≤ 0) (hdt : 0 < w.dt)
    (hacc : w.accumulator < w.dt) :
    (World.step_fixed vstep w real_dt).2 = 0
    ∧ (World.step_fixed vstep w real_dt).1.vehicles = w.vehicles
    ∧ (World.step_fixed vstep w real_dt).1.time = w.time
    ∧ (World.step_fixed vstep w real_dt).1.accumulator = w.accumulator + real_dt := by
  have hc : ¬ (w.dt ≤ w.accumulator + real_dt) := by linarith
  unfold World.step_fixed
  rw [show (20 : Nat) = 19 + 1 from rfl, stepFixedLoop]
  simp only [hc, if_false]
  simp

/-- C4 amended, witness: a fresh world (`dt = 1 ms`, empty accumulator)
stepped with `real_dt = 0` takes 0 steps and changes nothing. -/
theorem step_fixed_nonpositive_real_dt_noop_witness :
    (World.step_fixed (fun (v : Unit) _ => v) freshWorld 0).2 = 0
    ∧ (World.step_fixed (fun (v : Unit) _ => v) freshWorld 0).1.vehicles = freshWorld.vehicles
    ∧ (World.step_fixed (fun (v : Unit) _ => v) freshWorld 0).1.time = freshWorld.time
    ∧ (World.step_fixed (fun (v : Unit) _ => v) freshWorld 0).1.accumulator
        = freshWorld.accumulator + 0 :=
  step_fixed_nonpositive_real_dt_noop (fun v _ => v) freshWorld 0
    le_rfl (by norm_num [freshWorld]) (by norm_num [freshWorld])

/-! ### Math primitives (`core/vector.py`) -/

/-- Python `math.copysign(x, y)` for reals (a real `0` carries a positive
sign, as the float `+0.0` does). -/
noncomputable def copysign (x y : ℝ) : ℝ :=
  if y < 0 then -|x| else |x|

/-! ### Steering (`vehicle/steering.py`) -/

structure SteeringConfig where
  max_steer_angle : ℝ
  steering_ratio : ℝ
  ackermann_factor : ℝ
  wheelbase : ℝ
  track_width : ℝ
  steering_rate : ℝ
  steering_smoothing : ℝ

/-- The `SteeringConfig` dataclass defaults. -/
noncomputable def defaultSteeringConfig : SteeringConfig :=
  { max_steer_angle := 0.6, steering_ratio := 15, ackermann_factor := 0.8,
    wheelbase := 2.7, track_width := 1.5, steering_rate := 3,
    steering_smoothing := 0 }

/-- `Steering.get_wheel_angles(steer_input)`: per-wheel steering angles
`(left, right)`. The Python `try`/`except ZeroDivisionError` around the
geometric branch is modelled by guarding the three denominators; `math.tan`
and `math.atan` raise no error on finite input. -/
noncomputable def Steering.get_wheel_angles (cfg : SteeringConfig)
    (steer_input : ℝ) : ℝ × ℝ :=
  let base_angle := steer_input * cfg.max_steer_angle
  if |base_angle| < 0.001 then
    (0, 0)
  else if cfg.ackermann_factor < 0.001 then
    (base_angle, base_angle)
  else if |base_angle| < 0.1 then
    let ackermann_correction :=
      cfg.wheelbase * base_angle / (2 * cfg.track_width) * cfg.ackermann_factor
    (base_angle + ackermann_correction, base_angle - ackermann_correction)
  else
    let t := Real.tan |base_angle|
    let R := cfg.wheelbase / t
    let R_inner := R - cfg.track_width / 2
    let R_outer := R + cfg.track_width / 2
    if t = 0 ∨ R_inner = 0 ∨ R_outer = 0 then
      (base_angle, base_angle)
    else
      let angle_inner := Real.arctan (cfg.wheelbase / R_inner)
      let angle_outer := Real.arctan (cfg.wheelbase / R_outer)
      let factor := cfg.ackermann_factor
      if 0 < base_angle then
        (copysign (|base_angle| * (1 - factor) + angle_outer * factor) base_angle,
         copysign (|base_angle| * (1 - factor) + angle_inner * factor) base_angle)
      else
        (copysign (|base_angle| * (1 - factor) + angle_inner * factor) base_angle,
         copysign (|base_angle| * (1 - factor) + angle_outer * factor) base_angle)

/-- C5: evaluation at the failing input. With the default geometry
(`wheelbase 2.7`, `track 1.5`, `k = 0.8`) and base angle `δ = 0.05` rad — a
right turn, where the left wheel is the outer wheel — the linear correction
is `Δ = 0.036`, and the code returns left `= δ + Δ = 0.086` and right
`= δ − Δ = 0.014`: the outer wheel receives `δ + Δ`, not `δ − Δ` as the
claim (and the Ackermann documentation of the module) requires. -/
theorem get_wheel_angles_small_right_turn_outer_gets_plus :
    Steering.get_wheel_angles defaultSteeringConfig (1 / 12) = (43 / 500, 7 / 500)
    ∧ (43 : ℝ) / 500 = 1 / 20 + 9 / 250
    ∧ (7 : ℝ) / 500 = 1 / 20 - 9 / 250 := by
  refine ⟨?_, by norm_num, by norm_num⟩
  unfold Steering.get_wheel_angles defaultSteeringConfig
  norm_num
  norm_num [abs_of_pos]

/-! ### Suspension (`vehicle/suspension.py`) -/

structure SuspensionConfig where
  wheelbase : ℝ
  track_front : ℝ
  track_rear : ℝ
  cg_height : ℝ
  cg_to_front : ℝ
  total_mass : ℝ
  gravity : ℝ
  front_roll_stiffness : ℝ
  rear_roll_stiffness : ℝ

noncomputable def SuspensionConfig.cg_to_rear (cfg : SuspensionConfig) : ℝ :=
  cfg.wheelbase - cfg.cg_to_front

noncomputable def SuspensionConfig.front_weight_fraction (cfg : SuspensionConfig) : ℝ :=
  cfg.cg_to_rear / cfg.wheelbase

noncomputable def SuspensionConfig.rear_weight_fraction (cfg : SuspensionConfig) : ℝ :=
  cfg.cg_to_front / cfg.wheelbase

/-- The `SuspensionConfig` dataclass defaults. -/
noncomputable def defaultSuspensionConfig : SuspensionConfig :=
  { wheelbase := 2.7, track_front := 1.5, track_rear := 1.5, cg_height := 0.5,
    cg_to_front := 1.35, total_mass := 1400, gravity := 9.81,
    front_roll_stiffness := 0.5, rear_roll_stiffness := 0.5 }

structure WheelLoads where
  FL : ℝ
  FR : ℝ
  RL : ℝ
  RR : ℝ

/-- `Suspension._calculate_static_loads`. -/
noncomputable def Suspension.calculate_static_loads (cfg : SuspensionConfig) : WheelLoads :=
  let total_weight := cfg.total_mass * cfg.gravity
  let front_weight := total_weight * cfg.front_weight_fraction
  let rear_weight := total_weight * cfg.rear_weight_fraction
  { FL := front_weight / 2, FR := front_weight / 2,
    RL := rear_weight / 2, RR := rear_weight / 2 }

/-- `Suspension.calculate_loads_simple(longitudinal_accel, lateral_accel)`. -/
noncomputable def Suspension.calculate_loads_simple (cfg : SuspensionConfig)
    (longitudinal_accel lateral_accel : ℝ) : WheelLoads :=
  let m := cfg.total_mass
  let h := cfg.cg_height
  let g := cfg.gravity
  let total_weight := m * g
  let front_frac := cfg.front_weight_fraction
  let rear_frac := cfg.rear_weight_fraction
  let long_transfer := m * longitudinal_accel * h / cfg.wheelbase
  let lat_transfer_front := m * lateral_accel * h * front_frac / cfg.track_front
  let lat_transfer_rear := m * lateral_accel * h * rear_frac / cfg.track_rear
  { FL := max 0 (total_weight * front_frac / 2 - long_transfer / 2 + lat_transfer_front)
    FR := max 0 (total_weight * front_frac / 2 - long_transfer / 2 - lat_transfer_front)
    RL := max 0 (total_weight * rear_frac / 2 + long_transfer / 2 + lat_transfer_rear)
    RR := max 0 (total_weight * rear_frac / 2 + long_transfer / 2 - lat_transfer_rear) }

/-- C8: with `0 < cg_to_front < wheelbase`, positive mass and tracks and
non-negative gravity, the wheel loads at zero accelerations sum exactly to
`m·g`, the front axle carries exactly the `cg_to_rear / wheelbase` share, the
rear axle exactly the `cg_to_front / wheelbase` share, and each axle splits
equally left/right. -/
theorem static_loads_split (cfg : SuspensionConfig)
    (h1 : 0 < cfg.cg_to_front) (h2 : cfg.cg_to_front < cfg.wheelbase)
    (h3 : 0 < cfg.total_mass) (h4 : 0 < cfg.track_front) (h5 : 0 < cfg.track_rear)
    (h6 : 0 ≤ cfg.gravity) :
    let loads := Suspension.calculate_loads_simple cfg 0 0
    loads.FL + loads.FR + loads.RL + loads.RR = cfg.total_mass * cfg.gravity
    ∧ loads.FL + loads.FR
        = cfg.cg_to_rear / cfg.wheelbase * (cfg.total_mass * cfg.gravity)
    ∧ loads.RL + loads.RR
        = cfg.cg_to_front / cfg.wheelbase * (cfg.total_mass * cfg.gravity)
    ∧ loads.FL = loads.FR ∧ loads.RL = loads.RR := by
  have hwb : 0 < cfg.wheelbase := h1.trans h2
  have hrear : 0 ≤ cfg.cg_to_rear := by
    unfold SuspensionConfig.cg_to_rear; linarith
  have hg : 0 ≤ cfg.total_mass * cfg.gravity := mul_nonneg h3.le h6
  have hff : 0 ≤ cfg.front_weight_fraction := div_nonneg hrear hwb.le
  have hrf : 0 ≤ cfg.rear_weight_fraction := div_nonneg h1.le hwb.le
  have hsum : cfg.front_weight_fraction + cfg.rear_weight_fraction = 1 := by
    unfold SuspensionConfig.front_weight_fraction SuspensionConfig.rear_weight_fraction
      SuspensionConfig.cg_to_rear
    field_simp
  have hf2 : 0 ≤ cfg.total_mass * cfg.gravity * cfg.front_weight_fraction / 2 :=
    div_nonneg (mul_nonneg hg hff) two_pos.le
  have hr2 : 0 ≤ cfg.total_mass * cfg.gravity * cfg.rear_weight_fraction / 2 :=
    div_nonneg (mul_nonneg hg hrf) two_pos.le
  intro loads
  have hloads : loads = ⟨cfg.total_mass * cfg.gravity * cfg.front_weight_fraction / 2,
      cfg.total_mass * cfg.gravity * cfg.front_weight_fraction / 2,
      cfg.total_mass * cfg.gravity * cfg.rear_weight_fraction / 2,
      cfg.total_mass * cfg.gravity * cfg.rear_weight_fraction / 2⟩ := by
    show Suspension.calculate_loads_simple cfg 0 0 = _
    simp only [Suspension.calculate_loads_simple, mul_zero, zero_mul, zero_div,
      sub_zero, add_zero]
    rw [max_eq_right hf2, max_eq_right hr2]
  rw [hloads]
  refine ⟨?_, ?_, ?_, rfl, rfl⟩
  · have : cfg.total_mass * cfg.gravity * cfg.front_weight_fraction / 2
        + cfg.total_mass * cfg.gravity * cfg.front_weight_fraction / 2
        + cfg.total_mass * cfg.gravity * cfg.rear_weight_fraction / 2
        + cfg.total_mass * cfg.gravity * cfg.rear_weight_fraction / 2
        = cfg.total_mass * cfg.gravity
          * (cfg.front_weight_fraction + cfg.rear_weight_fraction) := by ring
    rw [this, hsum, mul_one]
  · show cfg.total_mass * cfg.gravity * cfg.front_weight_fraction / 2
        + cfg.total_mass * cfg.gravity * cfg.front_weight_fraction / 2 = _
    unfold SuspensionConfig.front_weight_fraction
    ring
  · show cfg.total_mass * cfg.gravity * cfg.rear_weight_fraction / 2
        + cfg.total_mass * cfg.gravity * cfg.rear_weight_fraction / 2 = _
    unfold SuspensionConfig.rear_weight_fraction
    ring

/-- C8, witness: the default suspension configuration (1400 kg, wheelbase
2.7 m, CG centred) satisfies all hypotheses. -/
theorem static_loads_split_witness :
    let loads := Suspension.calculate_loads_simple defaultSuspensionConfig 0 0
    loads.FL + loads.FR + loads.RL + loads.RR
        = defaultSuspensionConfig.total_mass * defaultSuspensionConfig.gravity
    ∧ loads.FL + loads.FR
        = defaultSuspensionConfig.cg_to_rear / defaultSuspensionConfig.wheelbase
          * (defaultSuspensionConfig.total_mass * defaultSuspensionConfig.gravity)
    ∧ loads.RL + loads.RR
        = defaultSuspensionConfig.cg_to_front / defaultSuspensionConfig.wheelbase
          * (defaultSuspensionConfig.total_mass * defaultSuspensionConfig.gravity)
    ∧ loads.FL = loads.FR ∧ loads.RL = loads.RR :=
  static_loads_split defaultSuspensionConfig
    (by norm_num [defaultSuspensionConfig]) (by norm_num [defaultSuspensionConfig])
    (by norm_num [defaultSuspensionConfig]) (by norm_num [defaultSuspensionConfig])
    (by norm_num [defaultSuspensionConfig]) (by norm_num [defaultSuspensionConfig])

/-! ### Drivetrain (`vehicle/drivetrain.py`) -/

inductive DifferentialType where
  | OPEN
  | LOCKED
  | LSD
deriving DecidableEq

inductive DriveType where
  | RWD
  | FWD
  | AWD
deriving DecidableEq

structure DrivetrainConfig where
  drive_type : DriveType
  differential : DifferentialType
  max_torque : ℝ
  max_rpm : ℝ
  idle_rpm : ℝ
  gear_ratio : ℝ
  efficiency : ℝ
  lsd_preload : ℝ
  lsd_power_ratio : ℝ
  lsd_coast_ratio : ℝ
  wheel_inertia : ℝ
  max_brake_torque : ℝ
  brake_bias : ℝ

/-- `Drivetrain.get_engine_torque(throttle)`; `engine_rpm` is the stored engine
state. -/
noncomputable def Drivetrain.get_engine_torque (cfg : DrivetrainConfig)
    (engine_rpm throttle : ℝ) : ℝ :=
  let rpm_fraction := engine_rpm / cfg.max_rpm
  let rpm_fraction := max 0.1 (min 1 rpm_fraction)
  let torque_mult :=
    if rpm_fraction < 0.3 then 0.6 + rpm_fraction / 0.3 * 0.4
    else if rpm_fraction < 0.8 then 1
    else 1 - (rpm_fraction - 0.8) / 0.2 * 0.3
  throttle * cfg.max_torque * torque_mult

/-- `Drivetrain._calculate_lsd_torques(axle_torque, omega_L, omega_R)`. -/
noncomputable def Drivetrain.calculate_lsd_torques (cfg : DrivetrainConfig)
    (axle_torque omega_L omega_R : ℝ) : ℝ × ℝ :=
  let delta_omega := omega_R - omega_L
  let lock_ratio :=
    if 0 < axle_torque then cfg.lsd_power_ratio else cfg.lsd_coast_ratio
  let locking_torque := cfg.lsd_preload + |axle_torque| * lock_ratio
  let T_base := axle_torque / 2
  if 0.1 < |delta_omega| then
    let transfer := min locking_torque |T_base|
    if 0 < delta_omega then
      (T_base + transfer * lock_ratio, T_base - transfer * lock_ratio)
    else
      (T_base - transfer * lock_ratio, T_base + transfer * lock_ratio)
  else
    (T_base, T_base)

/-- `Drivetrain.get_drive_torques(throttle, (omega_L, omega_R))`. -/
noncomputable def Drivetrain.get_drive_torques (cfg : DrivetrainConfig)
    (engine_rpm throttle omega_L omega_R : ℝ) : ℝ × ℝ :=
  let engine_torque := Drivetrain.get_engine_torque cfg engine_rpm throttle
  let axle_torque := engine_torque * cfg.gear_ratio * cfg.efficiency
  match cfg.differential with
  | DifferentialType.LOCKED => (axle_torque / 2, axle_torque / 2)
  | DifferentialType.OPEN => (axle_torque / 2, axle_torque / 2)
  | DifferentialType.LSD =>
      Drivetrain.calculate_lsd_torques cfg axle_torque omega_L omega_R

/-- C10: for every differential type, throttle, engine state and pair of
wheel speeds, the two drive torques sum exactly to the axle torque, i.e.
engine torque times gear ratio times efficiency; the LSD transfer only
redistributes torque between the wheels. -/
theorem drive_torques_sum (cfg : DrivetrainConfig)
    (engine_rpm throttle omega_L omega_R : ℝ) :
    (Drivetrain.get_drive_torques cfg engine_rpm throttle omega_L omega_R).1
      + (Drivetrain.get_drive_torques cfg engine_rpm throttle omega_L omega_R).2
    = Drivetrain.get_engine_torque cfg engine_rpm throttle
        * cfg.gear_ratio * cfg.efficiency := by
  unfold Drivetrain.get_drive_torques Drivetrain.calculate_lsd_torques
  cases cfg.differential <;> simp only []
  · ring
  · ring
  · split
    · split <;> ring
    · ring

/-! ### Tire relaxation (`tire/relaxation.py`) -/

structure TireRelaxation where
  sigma_x : ℝ
  sigma_y : ℝ
  Fx : ℝ
  Fy : ℝ

/-- `TireRelaxation.update`: exact first-order exponential filter with
`tau = min(sigma / max(|velocity|, 0.5), 0.5)` per axis. -/
noncomputable def TireRelaxation.update (s : TireRelaxation)
    (target_Fx target_Fy velocity dt : ℝ) : TireRelaxation :=
  let v := max |velocity| 0.5
  let tau_x := min (s.sigma_x / v) 0.5
  let tau_y := min (s.sigma_y / v) 0.5
  let Fx :=
    if 0 < tau_x then s.Fx + (target_Fx - s.Fx) * (1 - Real.exp (-dt / tau_x))
    else target_Fx
  let Fy :=
    if 0 < tau_y then s.Fy + (target_Fy - s.Fy) * (1 - Real.exp (-dt / tau_y))
    else target_Fy
  { s with Fx := Fx, Fy := Fy }

/-- `TireRelaxation.update_simple`: linear variant `alpha = min(dt/tau, 1)`. -/
noncomputable def TireRelaxation.update_simple (s : TireRelaxation)
    (target_Fx target_Fy velocity dt : ℝ) : TireRelaxation :=
  let v := max |velocity| 0.5
  let tau_x := min (s.sigma_x / v) 0.5
  let tau_y := min (s.sigma_y / v) 0.5
  let alpha_x := if 0 < tau_x then min (dt / tau_x) 1 else 1
  let alpha_y := if 0 < tau_y then min (dt / tau_y) 1 else 1
  { s with Fx := s.Fx + (target_Fx - s.Fx) * alpha_x,
           Fy := s.Fy + (target_Fy - s.Fy) * alpha_y }

theorem filter_step_contraction (F t a : ℝ) (h0 : 0 ≤ a) (h1 : a ≤ 1) :
    |t - (F + (t - F) * a)| ≤ |t - F| := by
  have he : t - (F + (t - F) * a) = (t - F) * (1 - a) := by ring
  rw [he, abs_mul]
  have h2 : |1 - a| ≤ 1 := by rw [abs_of_nonneg (by linarith)]; linarith
  calc |t - F| * |1 - a| ≤ |t - F| * 1 :=
        mul_le_mul_of_nonneg_left h2 (abs_nonneg _)
    _ = |t - F| := mul_one _

theorem exp_alpha_mem (dt tau : ℝ) (hdt : 0 ≤ dt) (htau : 0 < tau) :
    0 ≤ 1 - Real.exp (-dt / tau) ∧ 1 - Real.exp (-dt / tau) ≤ 1 := by
  constructor
  · have h : Real.exp (-dt / tau) ≤ 1 :=
      Real.exp_le_one_iff.mpr (div_nonpos_of_nonpos_of_nonneg (by linarith) htau.le)
    linarith
  · have h : 0 < Real.exp (-dt / tau) := Real.exp_pos _
    linarith

theorem lin_alpha_mem (dt tau : ℝ) (hdt : 0 ≤ dt) (htau : 0 < tau) :
    0 ≤ min (dt / tau) 1 ∧ min (dt / tau) 1 ≤ 1 :=
  ⟨le_min (div_nonneg hdt htau.le) one_pos.le, min_le_right _ _⟩

/-- C7: one relaxation step never increases the distance to the target
force: for any state, any targets, any velocity and any `dt ≥ 0`, both the
exact-exponential update and the linear variant satisfy
`|target − F_new| ≤ |target − F_old|`, on both axes. -/
theorem relaxation_error_nonincreasing (s : TireRelaxation)
    (target_Fx target_Fy velocity dt : ℝ) (hdt : 0 ≤ dt) :
    (|target_Fx - (s.update target_Fx target_Fy velocity dt).Fx| ≤ |target_Fx - s.Fx|
      ∧ |target_Fy - (s.update target_Fx target_Fy velocity dt).Fy| ≤ |target_Fy - s.Fy|)
    ∧ (|target_Fx - (s.update_simple target_Fx target_Fy velocity dt).Fx|
          ≤ |target_Fx - s.Fx|
      ∧ |target_Fy - (s.update_simple target_Fx target_Fy velocity dt).Fy|
          ≤ |target_Fy - s.Fy|) := by
  unfold TireRelaxation.update TireRelaxation.update_simple
  refine ⟨⟨?_, ?_⟩, ?_, ?_⟩ <;> simp only [] <;> split
  · rename_i h
    exact filter_step_contraction _ _ _ (exp_alpha_mem dt _ hdt h).1
      (exp_alpha_mem dt _ hdt h).2
  · simpa using abs_nonneg _
  · rename_i h
    exact filter_step_contraction _ _ _ (exp_alpha_mem dt _ hdt h).1
      (exp_alpha_mem dt _ hdt h).2
  · simpa using abs_nonneg _
  · rename_i h
    exact filter_step_contraction _ _ _ (lin_alpha_mem dt _ hdt h).1
      (lin_alpha_mem dt _ hdt h).2
  · exact filter_step_contraction _ _ _ zero_le_one le_rfl
  · rename_i h
    exact filter_step_contraction _ _ _ (lin_alpha_mem dt _ hdt h).1
      (lin_alpha_mem dt _ hdt h).2
  · exact filter_step_contraction _ _ _ zero_le_one le_rfl

/-- C7, witness: a concrete step (default relaxation lengths 0.4/0.5 m,
zero current force, target 1000 N, 10 m/s, `dt = 1 ms`). -/
theorem relaxation_error_nonincreasing_witness :
    let s : TireRelaxation := ⟨0.4, 0.5, 0, 0⟩
    (|1000 - (s.update 1000 (-200) 10 0.001).Fx| ≤ |1000 - s.Fx|
      ∧ |(-200 : ℝ) - (s.update 1000 (-200) 10 0.001).Fy| ≤ |(-200 : ℝ) - s.Fy|)
    ∧ (|1000 - (s.update_simple 1000 (-200) 10 0.001).Fx| ≤ |1000 - s.Fx|
      ∧ |(-200 : ℝ) - (s.update_simple 1000 (-200) 10 0.001).Fy|
          ≤ |(-200 : ℝ) - s.Fy|) :=
  relaxation_error_nonincreasing ⟨0.4, 0.5, 0, 0⟩ 1000 (-200) 10 0.001 (by norm_num)

/-! ### Rigid body (`core/rigid_body.py`, `core/vector.py`) -/

structure Vector3 where
  x : ℝ
  y : ℝ
  z : ℝ

instance : Add Vector3 :=
  ⟨fun a b => ⟨a.x + b.x, a.y + b.y, a.z + b.z⟩⟩

noncomputable instance : HMul Vector3 ℝ Vector3 :=
  ⟨fun a s => ⟨a.x * s, a.y * s, a.z * s⟩⟩

noncomputable instance : HDiv Vector3 ℝ Vector3 :=
  ⟨fun a s => ⟨a.x / s, a.y / s, a.z / s⟩⟩

/-- `normalize_angle(angle)` of `core/vector.py`. The Python body is two
`while` loops: the first subtracts `2π` while `angle > π`, the second adds
`2π` while `angle < -π`. Each loop runs the least number of iterations that
falsifies its condition, which is the `max 0 ⌈…⌉` count below; this is the
exact closed form of the loops. -/
noncomputable def normalize_angle (angle : ℝ) : ℝ :=
  let a1 := angle - 2 * Real.pi * (max 0 ⌈(angle - Real.pi) / (2 * Real.pi)⌉ : ℤ)
  a1 + 2 * Real.pi * (max 0 ⌈(-Real.pi - a1) / (2 * Real.pi)⌉ : ℤ)

theorem normalize_angle_phase1 (x : ℝ) :
    x - 2 * Real.pi * (max 0 ⌈(x - Real.pi) / (2 * Real.pi)⌉ : ℤ) ≤ Real.pi := by
  have h2pi : (0 : ℝ) < 2 * Real.pi := by positivity
  rcases le_or_lt ⌈(x - Real.pi) / (2 * Real.pi)⌉ 0 with h | h
  · rw [max_eq_left h]
    have : (x - Real.pi) / (2 * Real.pi) ≤ 0 := by
      exact_mod_cast Int.ceil_le.mp h
    have := (div_nonpos_iff.mp this)
    push_cast
    rcases this with ⟨h1, _⟩ | ⟨_, h2⟩
    · linarith
    · linarith
  · rw [max_eq_right h.le]
    have hle : (x - Real.pi) / (2 * Real.pi) ≤ (⌈(x - Real.pi) / (2 * Real.pi)⌉ : ℝ) :=
      Int.le_ceil _
    have := (div_le_iff h2pi).mp hle
    linarith

theorem normalize_angle_phase2 (y : ℝ) (hy : y ≤ Real.pi) :
    -Real.pi ≤ y + 2 * Real.pi * (max 0 ⌈(-Real.pi - y) / (2 * Real.pi)⌉ : ℤ)
    ∧ y + 2 * Real.pi * (max 0 ⌈(-Real.pi - y) / (2 * Real.pi)⌉ : ℤ) ≤ Real.pi := by
  have h2pi : (0 : ℝ) < 2 * Real.pi := by positivity
  rcases le_or_lt ⌈(-Real.pi - y) / (2 * Real.pi)⌉ 0 with h | h
  · rw [max_eq_left h]
    have hc : (-Real.pi - y) / (2 * Real.pi) ≤ 0 := by
      exact_mod_cast Int.ceil_le.mp h
    have := div_nonpos_iff.mp hc
    push_cast
    constructor
    · rcases this with ⟨h1, _⟩ | ⟨_, h2⟩
      · linarith
      · linarith
    · simpa using hy
  · rw [max_eq_right h.le]
    constructor
    · have hle : (-Real.pi - y) / (2 * Real.pi)
          ≤ (⌈(-Real.pi - y) / (2 * Real.pi)⌉ : ℝ) := Int.le_ceil _
      have := (div_le_iff h2pi).mp hle
      linarith
    · have hlt : (⌈(-Real.pi - y) / (2 * Real.pi)⌉ : ℝ)
          < (-Real.pi - y) / (2 * Real.pi) + 1 := Int.ceil_lt_add_one _
      have := (lt_div_iff h2pi).mp (by linarith : ((⌈(-Real.pi - y) / (2 * Real.pi)⌉ : ℝ) - 1) < (-Real.pi - y) / (2 * Real.pi))
      nlinarith [Real.pi_pos]

theorem normalize_angle_mem (x : ℝ) :
    -Real.pi ≤ normalize_angle x ∧ normalize_angle x ≤ Real.pi := by
  unfold normalize_angle
  exact normalize_angle_phase2 _ (normalize_angle_phase1 x)

structure RigidBody where
  mass : ℝ
  inertia : ℝ
  position : Vector3
  orientation : ℝ
  velocity : Vector3
  angular_velocity : ℝ
  force : Vector3
  torque : ℝ

/-- `RigidBody.get_acceleration`: `_force / mass` componentwise. -/
noncomputable def RigidBody.get_acceleration (b : RigidBody) : Vector3 :=
  b.force / b.mass

/-- `RigidBody.get_angular_acceleration`: `_torque / inertia`. -/
noncomputable def RigidBody.get_angular_acceleration (b : RigidBody) : ℝ :=
  b.torque / b.inertia

/-- `RigidBody.integrate(dt)`: semi-implicit Euler, then yaw normalization,
then `clear_forces()`. -/
noncomputable def RigidBody.integrate (b : RigidBody) (dt : ℝ) : RigidBody :=
  let acceleration := b.get_acceleration
  let velocity := b.velocity + acceleration * dt
  let position := b.position + velocity * dt
  let angular_velocity := b.angular_velocity + b.get_angular_acceleration * dt
  let orientation := normalize_angle (b.orientation + angular_velocity * dt)
  { b with
    velocity := velocity
    position := position
    angular_velocity := angular_velocity
    orientation := orientation
    force := ⟨0, 0, 0⟩
    torque := 0 }

/-! ### Analysis helpers used for the tire-force bounds -/

theorem arctan_self_le (x : ℝ) (hx : 0 ≤ x) : Real.arctan x ≤ x := by
  rcases eq_or_lt_of_le hx with h | h
  · rw [← h, Real.arctan_zero]
  · have h1 : 0 < Real.arctan x := Real.arctan_zero ▸ Real.arctan_strictMono h
    have h2 : Real.arctan x < Real.pi / 2 := Real.arctan_lt_pi_div_two x
    have h3 := Real.le_tan h1.le h2
    rwa [Real.tan_arctan] at h3

theorem sub_cube_le_arctan (x : ℝ) (hx : 0 ≤ x) : x - x ^ 3 ≤ Real.arctan x := by
  have harct0 : (0 : ℝ) ≤ Real.arctan x := by
    rcases eq_or_lt_of_le hx with h | h
    · rw [← h, Real.arctan_zero]
    · exact (Real.arctan_zero ▸ Real.arctan_strictMono h).le
  rcases le_or_lt 1 x with hone | hone
  · nlinarith [pow_le_pow_left (by linarith : (0:ℝ) ≤ 1) hone 2]
  · rcases le_or_lt (x - x ^ 3) 0 with hc0 | hc0
    · linarith
    · obtain ⟨c, hc⟩ : ∃ c : ℝ, c = x - x ^ 3 := ⟨_, rfl⟩
      rw [← hc] at hc0 ⊢
      have hcx : c ≤ x := by rw [hc]; nlinarith [pow_nonneg hx 3]
      have hpi2 : (1 : ℝ) < Real.pi / 2 := by
        linarith [Real.pi_gt_3141592]
      have hclt : c < Real.pi / 2 := by linarith
      have hcos : 0 < Real.cos c :=
        Real.cos_pos_of_mem_Ioo ⟨by linarith [Real.pi_pos], hclt⟩
      have hcoslb : 1 - c ^ 2 / 2 ≤ Real.cos c := Real.one_sub_sq_div_two_le_cos
      have hsin : Real.sin c ≤ c := Real.sin_le hc0.le
      have hxpos : 0 < x := by nlinarith [pow_nonneg hx 3, hc]
      have hc2 : c ^ 2 ≤ x ^ 2 := pow_le_pow_left hc0.le hcx 2
      have hkey : c ≤ x * (1 - c ^ 2 / 2) := by
        have hm : x * c ^ 2 ≤ x * x ^ 2 := mul_le_mul_of_nonneg_left hc2 hxpos.le
        have hxc : x - c = x ^ 3 := by rw [hc]; ring
        nlinarith [hm, hxc, pow_nonneg hxpos.le 3]
      have htan : Real.tan c ≤ x := by
        rw [Real.tan_eq_sin_div_cos, div_le_iff hcos]
        have : x * (1 - c ^ 2 / 2) ≤ x * Real.cos c :=
          mul_le_mul_of_nonneg_left hcoslb hx
        linarith
      calc c = Real.arctan (Real.tan c) :=
            (Real.arctan_tan (by linarith) hclt).symm
        _ ≤ Real.arctan x := Real.arctan_strictMono.monotone htan

theorem sin_two_arctan (t : ℝ) :
    Real.sin (2 * Real.arctan t) = 2 * t / (1 + t ^ 2) := by
  have h : (0 : ℝ) ≤ 1 + t ^ 2 := by positivity
  have hs : Real.sqrt (1 + t ^ 2) * Real.sqrt (1 + t ^ 2) = 1 + t ^ 2 :=
    Real.mul_self_sqrt h
  have hpos : 0 < Real.sqrt (1 + t ^ 2) := by
    apply Real.sqrt_pos.mpr; positivity
  rw [Real.sin_two_mul, Real.sin_arctan, Real.cos_arctan]
  rw [show (2 : ℝ) * (t / Real.sqrt (1 + t ^ 2)) * (1 / Real.sqrt (1 + t ^ 2))
      = 2 * t / (Real.sqrt (1 + t ^ 2) * Real.sqrt (1 + t ^ 2)) from by ring, hs]

theorem foldr_max_le (c : ℝ) (hc : 0 ≤ c) :
    ∀ l : List ℝ, (∀ x ∈ l, x ≤ c) → l.foldr max 0 ≤ c := by
  intro l
  induction l with
  | nil => intro _; simpa using hc
  | cons a t ih =>
    intro h
    simp only [List.foldr_cons]
    exact max_le (h a (by simp)) (ih fun x hx => h x (by simp [hx]))

theorem le_foldr_max (x : ℝ) : ∀ l : List ℝ, x ∈ l → x ≤ l.foldr max 0 := by
  intro l
  induction l with
  | nil => intro h; cases h
  | cons a t ih =>
    intro h
    rcases List.mem_cons.mp h with h | h
    · subst h; exact le_max_left _ _
    · exact (ih h).trans (le_max_right _ _)

/-! ### Pacejka Magic Formula (`tire/pacejka.py`) -/

structure PacejkaParams where
  b0 : ℝ
  b1 : ℝ
  b2 : ℝ
  b3 : ℝ
  b4 : ℝ
  b5 : ℝ
  b6 : ℝ
  b7 : ℝ
  b8 : ℝ
  b9 : ℝ
  b10 : ℝ
  b11 : ℝ
  b12 : ℝ
  b13 : ℝ
  a0 : ℝ
  a1 : ℝ
  a2 : ℝ
  a3 : ℝ
  a4 : ℝ
  a5 : ℝ
  a6 : ℝ
  a7 : ℝ
  a8 : ℝ
  a9 : ℝ
  a10 : ℝ
  a11 : ℝ
  a12 : ℝ
  a13 : ℝ
  a14 : ℝ
  a15 : ℝ
  a16 : ℝ
  a17 : ℝ
  nominal_load : ℝ
  slip_angle_in_degrees : Bool

/-- `PacejkaParams.sport_tire()` (also the dataclass defaults). -/
noncomputable def PacejkaParams.sport_tire : PacejkaParams :=
  { b0 := 1.65, b1 := 0, b2 := 1688, b3 := 0, b4 := 229, b5 := 0, b6 := 0,
    b7 := 0, b8 := -10, b9 := 0, b10 := 0, b11 := 0, b12 := 0, b13 := 0,
    a0 := 1.3, a1 := -22.1, a2 := 1011, a3 := 1078, a4 := 1.82, a5 := 0.208,
    a6 := 0, a7 := -0.354, a8 := 0.707, a9 := 0.028, a10 := 0, a11 := 14.8,
    a12 := 0.022, a13 := 0, a14 := 0, a15 := 0, a16 := 0, a17 := 0,
    nominal_load := 4000, slip_angle_in_degrees := true }

/-- The core Magic Formula
`F = D·sin(C·atan(B·(x+Sh) − E·(B·(x+Sh) − atan(B·(x+Sh))))) + Sv`. -/
noncomputable def magic_formula (x B C D E Sh Sv : ℝ) : ℝ :=
  let x1 := x + Sh
  let Bx1 := B * x1
  D * Real.sin (C * Real.arctan (Bx1 - E * (Bx1 - Real.arctan Bx1))) + Sv

/-- `PacejkaFormula.longitudinal_force(slip_ratio, Fz)`. -/
noncomputable def PacejkaFormula.longitudinal_force (p : PacejkaParams)
    (slip_ratio Fz : ℝ) : ℝ :=
  if Fz ≤ 0 then 0
  else
    let Fz_kN := Fz / 1000
    let C := p.b0
    let D := Fz * (p.b1 * Fz_kN + p.b2) / 1000
    let BCD := (p.b3 * Fz_kN * Fz_kN + p.b4 * Fz_kN) * Real.exp (-p.b5 * Fz_kN)
    let B := if 1e-6 < |C * D| then BCD / (C * D) else 0
    let E := p.b6 * Fz_kN * Fz_kN + p.b7 * Fz_kN + p.b8
    let Sh := p.b9 * Fz_kN + p.b10
    let Sv := p.b11 * Fz_kN + p.b12
    magic_formula slip_ratio B C D E Sh Sv

/-- `PacejkaFormula.lateral_force(slip_angle, Fz, camber)`; `math.degrees`
is multiplication by `180/π`. -/
noncomputable def PacejkaFormula.lateral_force (p : PacejkaParams)
    (slip_angle Fz camber : ℝ) : ℝ :=
  if Fz ≤ 0 then 0
  else
    let slip_angle :=
      if p.slip_angle_in_degrees then slip_angle else 180 / Real.pi * slip_angle
    let Fz_kN := Fz / 1000
    let D := Fz * (p.a1 * Fz_kN + p.a2) * (1 - p.a15 * camber * camber) / 1000
    let C := p.a0
    let BCD :=
      p.a3 * Real.sin (2 * Real.arctan (Fz_kN / p.a4)) * (1 - p.a5 * |camber|)
    let B := if 1e-6 < |C * D| then BCD / (C * D) else 0
    let E := (p.a6 * Fz_kN + p.a7)
      * (1 - (p.a16 * camber + p.a17) * copysign 1 slip_angle)
    let Sh := p.a8 * Fz_kN + p.a9 + p.a10 * camber
    let Sv := p.a11 * Fz_kN + p.a12 + (p.a13 * Fz_kN + p.a14) * camber * Fz_kN
    magic_formula slip_angle B C D E Sh Sv

/-- `np.linspace(a, b, n)` (endpoint included). -/
noncomputable def linspace (a b : ℝ) (n : Nat) : List ℝ :=
  (List.range n).map fun (i : Nat) => a + (b - a) * (i : ℝ) / ((n : ℝ) - 1)

/-- `PacejkaFormula.get_peak_lateral_force(Fz, camber)`: numerical peak of
`|lateral_force|` over 200 slip-angle samples in `[0, 20]`. The source
returns `forces[argmax(forces)]`, the maximum of a non-empty list of
non-negative values, which equals this fold; the slip angle at the peak (the
second tuple component) is dropped as unused by the combined-slip code. -/
noncomputable def PacejkaFormula.get_peak_lateral_force (p : PacejkaParams)
    (Fz camber : ℝ) : ℝ :=
  (((linspace 0 20 200).map fun a =>
    |PacejkaFormula.lateral_force p a Fz camber|).foldr max 0)

/-- `PacejkaFormula.get_peak_longitudinal_force(Fz)`: numerical peak of
`|longitudinal_force|` over 200 slip-ratio samples in `[0, 0.5]` (same
convention as `get_peak_lateral_force`). -/
noncomputable def PacejkaFormula.get_peak_longitudinal_force (p : PacejkaParams)
    (Fz : ℝ) : ℝ :=
  (((linspace 0 0.5 200).map fun sr =>
    |PacejkaFormula.longitudinal_force p sr Fz|).foldr max 0)

theorem magic_formula_lower (x B C D E Sh Sv : ℝ) (hD : 0 ≤ D) :
    Sv - D ≤ magic_formula x B C D E Sh Sv := by
  simp only [magic_formula]
  have h := Real.neg_one_le_sin (C * Real.arctan (B * (x + Sh)
    - E * (B * (x + Sh) - Real.arctan (B * (x + Sh)))))
  nlinarith [h, hD]

theorem abs_magic_formula_le (x B C D E Sh Sv : ℝ) :
    |magic_formula x B C D E Sh Sv| ≤ |D| + |Sv| := by
  unfold magic_formula
  have habs : |Real.sin (C * Real.arctan (B * (x + Sh)
      - E * (B * (x + Sh) - Real.arctan (B * (x + Sh)))))| ≤ 1 :=
    abs_le.mpr ⟨Real.neg_one_le_sin _, Real.sin_le_one _⟩
  calc |D * Real.sin _ + Sv| ≤ |D * Real.sin _| + |Sv| := abs_add _ _
    _ = |D| * |Real.sin _| + |Sv| := by rw [abs_mul]
    _ ≤ |D| * 1 + |Sv| := by
        have := mul_le_mul_of_nonneg_left habs (abs_nonneg D)
        linarith
    _ = |D| + |Sv| := by rw [mul_one]

theorem lateral_force_ge (p : PacejkaParams) (slip_angle Fz camber : ℝ)
    (hFz : 0 < Fz)
    (hD : 0 ≤ Fz * (p.a1 * (Fz / 1000) + p.a2)
      * (1 - p.a15 * camber * camber) / 1000) :
    p.a11 * (Fz / 1000) + p.a12
        + (p.a13 * (Fz / 1000) + p.a14) * camber * (Fz / 1000)
      - Fz * (p.a1 * (Fz / 1000) + p.a2) * (1 - p.a15 * camber * camber) / 1000
      ≤ PacejkaFormula.lateral_force p slip_angle Fz camber := by
  rw [PacejkaFormula.lateral_force, if_neg (not_le.mpr hFz)]
  exact magic_formula_lower _ _ _ _ _ _ _ hD

theorem abs_lateral_force_le (p : PacejkaParams) (slip_angle Fz camber : ℝ)
    (hFz : 0 < Fz) :
    |PacejkaFormula.lateral_force p slip_angle Fz camber|
      ≤ |Fz * (p.a1 * (Fz / 1000) + p.a2) * (1 - p.a15 * camber * camber) / 1000|
        + |p.a11 * (Fz / 1000) + p.a12
            + (p.a13 * (Fz / 1000) + p.a14) * camber * (Fz / 1000)| := by
  rw [PacejkaFormula.lateral_force, if_neg (not_le.mpr hFz)]
  exact abs_magic_formula_le _ _ _ _ _ _ _

theorem abs_longitudinal_force_le (p : PacejkaParams) (slip_ratio Fz : ℝ)
    (hFz : 0 < Fz) :
    |PacejkaFormula.longitudinal_force p slip_ratio Fz|
      ≤ |Fz * (p.b1 * (Fz / 1000) + p.b2) / 1000|
        + |p.b11 * (Fz / 1000) + p.b12| := by
  rw [PacejkaFormula.longitudinal_force, if_neg (not_le.mpr hFz)]
  exact abs_magic_formula_le _ _ _ _ _ _ _

/-- C6 counterexample: for the sport tire at `Fz = 0.001 N > 0`, slip angle 0
and camber 0, the lateral force exceeds the claimed headroom bound
`(|a1|·Fz/1000 + |a2|)·Fz/1000·1.2`: the vertical shift `Sv = a11·Fz/1000 +
a12 ≈ 0.022` does not vanish with the load, while the claimed bound does. -/
theorem lateral_bound_fails_at_small_load :
    (|PacejkaParams.sport_tire.a1| * (0.001 / 1000) + |PacejkaParams.sport_tire.a2|)
        * (0.001 / 1000) * 1.2
      < |PacejkaFormula.lateral_force PacejkaParams.sport_tire 0 0.001 0| := by
  have hFz : (0 : ℝ) < 0.001 := by norm_num
  have hD : 0 ≤ (0.001 : ℝ)
      * (PacejkaParams.sport_tire.a1 * (0.001 / 1000) + PacejkaParams.sport_tire.a2)
      * (1 - PacejkaParams.sport_tire.a15 * 0 * 0) / 1000 := by
    norm_num [PacejkaParams.sport_tire]
  have hlow := lateral_force_ge PacejkaParams.sport_tire 0 0.001 0 hFz hD
  have habs := le_abs_self (PacejkaFormula.lateral_force PacejkaParams.sport_tire 0 0.001 0)
  have hnum : (|PacejkaParams.sport_tire.a1| * (0.001 / 1000)
        + |PacejkaParams.sport_tire.a2|) * (0.001 / 1000) * 1.2
      < PacejkaParams.sport_tire.a11 * (0.001 / 1000) + PacejkaParams.sport_tire.a12
        + (PacejkaParams.sport_tire.a13 * (0.001 / 1000) + PacejkaParams.sport_tire.a14)
            * 0 * (0.001 / 1000)
        - 0.001 * (PacejkaParams.sport_tire.a1 * (0.001 / 1000)
            + PacejkaParams.sport_tire.a2)
          * (1 - PacejkaParams.sport_tire.a15 * 0 * 0) / 1000 := by
    norm_num [PacejkaParams.sport_tire]
    rw [abs_of_pos (by norm_num : (0:ℝ) < 221 / 10)]
    norm_num
  linarith

/-- C6 amended: the Pacejka evaluators return 0 whenever `Fz ≤ 0`; for
`Fz ≥ 0` both forces are bounded by the claimed `1.2`-headroom load-scaling
term once the magnitude of the vertical shift `Sv` (and, for the lateral
force, the camber peak factor `|1 − a15·camber²|`) is added. For the presets
(`b11 = b12 = 0`) the longitudinal bound reduces to the claim's. -/
theorem pacejka_guard_and_bound (p : PacejkaParams) (slip Fz camber : ℝ) :
    (Fz ≤ 0 → PacejkaFormula.longitudinal_force p slip Fz = 0
        ∧ PacejkaFormula.lateral_force p slip Fz camber = 0)
    ∧ (0 ≤ Fz →
        |PacejkaFormula.longitudinal_force p slip Fz|
          ≤ (|p.b1| * (Fz / 1000) + |p.b2|) * (Fz / 1000) * 1.2
            + |p.b11 * (Fz / 1000) + p.b12|
        ∧ |PacejkaFormula.lateral_force p slip Fz camber|
          ≤ (|p.a1| * (Fz / 1000) + |p.a2|) * (Fz / 1000) * 1.2
              * |1 - p.a15 * camber * camber|
            + |p.a11 * (Fz / 1000) + p.a12|
            + |p.a13 * (Fz / 1000) + p.a14| * |camber| * (Fz / 1000)) := by
  constructor
  · intro h
    constructor
    · rw [PacejkaFormula.longitudinal_force, if_pos h]
    · rw [PacejkaFormula.lateral_force, if_pos h]
  · intro h
    rcases eq_or_lt_of_le h with h0 | h0
    · rw [PacejkaFormula.longitudinal_force, if_pos (le_of_eq h0.symm),
        PacejkaFormula.lateral_force, if_pos (le_of_eq h0.symm)]
      constructor <;> { simp only [abs_zero]; positivity }
    · have ht : 0 ≤ Fz / 1000 := by positivity
      constructor
      · refine (abs_longitudinal_force_le p slip Fz h0).trans ?_
        have hDb : |Fz * (p.b1 * (Fz / 1000) + p.b2) / 1000|
            ≤ (|p.b1| * (Fz / 1000) + |p.b2|) * (Fz / 1000) := by
          rw [abs_div, abs_mul, abs_of_pos h0, abs_of_pos (by norm_num : (0:ℝ) < 1000)]
          rw [div_le_iff (by norm_num : (0:ℝ) < 1000)]
          have habs2 : |p.b1 * (Fz / 1000) + p.b2| ≤ |p.b1| * (Fz / 1000) + |p.b2| := by
            refine (abs_add _ _).trans ?_
            rw [abs_mul, abs_of_nonneg ht]
          calc Fz * |p.b1 * (Fz / 1000) + p.b2|
              ≤ Fz * (|p.b1| * (Fz / 1000) + |p.b2|) :=
                mul_le_mul_of_nonneg_left habs2 h0.le
            _ = (|p.b1| * (Fz / 1000) + |p.b2|) * (Fz / 1000) * 1000 := by
                field_simp; ring
        have h12 : (|p.b1| * (Fz / 1000) + |p.b2|) * (Fz / 1000)
            ≤ (|p.b1| * (Fz / 1000) + |p.b2|) * (Fz / 1000) * 1.2 := by
          nlinarith [mul_nonneg (add_nonneg (mul_nonneg (abs_nonneg p.b1) ht)
            (abs_nonneg p.b2)) ht]
        linarith
      · refine (abs_lateral_force_le p slip Fz camber h0).trans ?_
        have hDa : |Fz * (p.a1 * (Fz / 1000) + p.a2) * (1 - p.a15 * camber * camber) / 1000|
            ≤ (|p.a1| * (Fz / 1000) + |p.a2|) * (Fz / 1000)
              * |1 - p.a15 * camber * camber| := by
          rw [abs_div, abs_mul, abs_mul, abs_of_pos h0,
            abs_of_pos (by norm_num : (0:ℝ) < 1000)]
          rw [div_le_iff (by norm_num : (0:ℝ) < 1000)]
          have habs2 : |p.a1 * (Fz / 1000) + p.a2| ≤ |p.a1| * (Fz / 1000) + |p.a2| := by
            refine (abs_add _ _).trans ?_
            rw [abs_mul, abs_of_nonneg ht]
          have hc : 0 ≤ |1 - p.a15 * camber * camber| := abs_nonneg _
          calc Fz * |p.a1 * (Fz / 1000) + p.a2| * |1 - p.a15 * camber * camber|
              ≤ Fz * (|p.a1| * (Fz / 1000) + |p.a2|) * |1 - p.a15 * camber * camber| := by
                refine mul_le_mul_of_nonneg_right ?_ hc
                exact mul_le_mul_of_nonneg_left habs2 h0.le
            _ = (|p.a1| * (Fz / 1000) + |p.a2|) * (Fz / 1000)
                  * |1 - p.a15 * camber * camber| * 1000 := by
                field_simp; ring
        have hSv : |p.a11 * (Fz / 1000) + p.a12
              + (p.a13 * (Fz / 1000) + p.a14) * camber * (Fz / 1000)|
            ≤ |p.a11 * (Fz / 1000) + p.a12|
              + |p.a13 * (Fz / 1000) + p.a14| * |camber| * (Fz / 1000) := by
          refine (abs_add _ _).trans ?_
          rw [abs_mul, abs_mul, abs_of_nonneg ht]
        have h12 : (|p.a1| * (Fz / 1000) + |p.a2|) * (Fz / 1000)
              * |1 - p.a15 * camber * camber|
            ≤ (|p.a1| * (Fz / 1000) + |p.a2|) * (Fz / 1000) * 1.2
              * |1 - p.a15 * camber * camber| := by
          have hnn : 0 ≤ (|p.a1| * (Fz / 1000) + |p.a2|) * (Fz / 1000) :=
            mul_nonneg (add_nonneg (mul_nonneg (abs_nonneg p.a1) ht)
              (abs_nonneg p.a2)) ht
          nlinarith [abs_nonneg (1 - p.a15 * camber * camber)]
        linarith

/-! ### Combined slip (`tire/combined.py`) -/

/-- Python `math.atan2(y, x)` (C convention, `atan2(0, 0) = 0`). -/
noncomputable def atan2 (y x : ℝ) : ℝ :=
  if 0 < x then Real.arctan (y / x)
  else if x < 0 then
    (if 0 ≤ y then Real.arctan (y / x) + Real.pi else Real.arctan (y / x) - Real.pi)
  else
    (if 0 < y then Real.pi / 2 else if y < 0 then -(Real.pi / 2) else 0)

structure CombinedForces where
  Fx : ℝ
  Fy : ℝ
  Fx_pure : ℝ
  Fy_pure : ℝ
  saturation : ℝ

/-- The `CombinedSlip` handler's state: its Pacejka formula and the two
friction scaling knobs. -/
structure CombinedSlip where
  pacejka : PacejkaParams
  friction_mu : ℝ
  ellipse_ratio : ℝ

/-- `CombinedSlip.combined_forces_simple(slip_ratio, slip_angle, Fz, camber)`. -/
noncomputable def CombinedSlip.combined_forces_simple (cs : CombinedSlip)
    (slip_ratio slip_angle Fz camber : ℝ) : CombinedForces :=
  let Fx_pure :=
    PacejkaFormula.longitudinal_force cs.pacejka slip_ratio Fz * cs.friction_mu
  let Fy_pure :=
    PacejkaFormula.lateral_force cs.pacejka slip_angle Fz camber * cs.friction_mu
  let Fx_peak := PacejkaFormula.get_peak_longitudinal_force cs.pacejka Fz
    * cs.friction_mu
  let Fy_peak := PacejkaFormula.get_peak_lateral_force cs.pacejka Fz camber
    * cs.friction_mu * cs.ellipse_ratio
  if Fx_peak < 1 ∨ Fy_peak < 1 then
    ⟨0, 0, Fx_pure, Fy_pure, 0⟩
  else
    let fx_norm := if 0 < Fx_peak then Fx_pure / Fx_peak else 0
    let fy_norm := if 0 < Fy_peak then Fy_pure / Fy_peak else 0
    let saturation := Real.sqrt (fx_norm * fx_norm + fy_norm * fy_norm)
    if saturation ≤ 1 then
      ⟨Fx_pure, Fy_pure, Fx_pure, Fy_pure, saturation⟩
    else
      let scale := 1 / saturation
      ⟨Fx_pure * scale, Fy_pure * scale, Fx_pure, Fy_pure, 1⟩

/-- `CombinedSlip.combined_forces_vector(slip_ratio, slip_angle_rad, Fz,
camber)`; `math.degrees` is multiplication by `180/π`. -/
noncomputable def CombinedSlip.combined_forces_vector (cs : CombinedSlip)
    (slip_ratio slip_angle_rad Fz camber : ℝ) : CombinedForces :=
  let slip_angle_deg := 180 / Real.pi * slip_angle_rad
  let Fx_pure :=
    PacejkaFormula.longitudinal_force cs.pacejka slip_ratio Fz * cs.friction_mu
  let Fy_pure :=
    PacejkaFormula.lateral_force cs.pacejka slip_angle_deg Fz camber * cs.friction_mu
  let epsilon := (1e-6 : ℝ)
  let tan_alpha := if |slip_angle_rad| < 1.5 then Real.tan slip_angle_rad else 10
  let sigma := Real.sqrt (slip_ratio * slip_ratio + tan_alpha * tan_alpha)
  if sigma < epsilon then
    ⟨0, 0, Fx_pure, Fy_pure, 0⟩
  else
    let sigma_deg := 180 / Real.pi * Real.arctan sigma
    let F_combined :=
      |PacejkaFormula.lateral_force cs.pacejka sigma_deg Fz camber| * cs.friction_mu
    let Fx0 := if epsilon < sigma then F_combined * (slip_ratio / sigma) else 0
    let Fy0 := if epsilon < sigma then F_combined * (tan_alpha / sigma) else 0
    let Fx := copysign Fx0 slip_ratio
    let Fy := copysign Fy0 slip_angle_rad
    let Fx_peak := PacejkaFormula.get_peak_longitudinal_force cs.pacejka Fz
    let Fy_peak := PacejkaFormula.get_peak_lateral_force cs.pacejka Fz camber
    let F_peak := Real.sqrt (Fx_peak ^ 2 + Fy_peak ^ 2) * cs.friction_mu
    let saturation := if 0 < F_peak then Real.sqrt (Fx ^ 2 + Fy ^ 2) / F_peak else 0
    ⟨Fx, Fy, Fx_pure, Fy_pure, min 1 saturation⟩

/-- `CombinedSlip.combined_forces_empirical(slip_ratio, slip_angle_deg, Fz,
camber)` (the default method). -/
noncomputable def CombinedSlip.combined_forces_empirical (cs : CombinedSlip)
    (slip_ratio slip_angle_deg Fz camber : ℝ) : CombinedForces :=
  let Fx_pure :=
    PacejkaFormula.longitudinal_force cs.pacejka slip_ratio Fz * cs.friction_mu
  let Fy_pure :=
    PacejkaFormula.lateral_force cs.pacejka slip_angle_deg Fz camber * cs.friction_mu
  let Fx_peak := PacejkaFormula.get_peak_longitudinal_force cs.pacejka Fz
    * cs.friction_mu
  let Fy_peak := PacejkaFormula.get_peak_lateral_force cs.pacejka Fz camber
    * cs.friction_mu
  if Fx_peak < 1 ∨ Fy_peak < 1 then
    ⟨0, 0, Fx_pure, Fy_pure, 0⟩
  else
    let fx_norm := |Fx_pure| / Fx_peak
    let fy_norm := |Fy_pure| / Fy_peak
    if fx_norm + fy_norm < 0.001 then
      ⟨0, 0, Fx_pure, Fy_pure, 0⟩
    else
      let force_angle := atan2 fy_norm fx_norm
      let Gx := Real.cos (force_angle * 0.5)
      let Gy := Real.cos ((Real.pi / 2 - force_angle) * 0.5)
      let Fx := Fx_pure * Gx
      let Fy := Fy_pure * Gy
      let fx_scaled := if 0 < Fx_peak then Fx / Fx_peak else 0
      let fy_scaled := if 0 < Fy_peak then Fy / Fy_peak else 0
      let saturation := Real.sqrt (fx_scaled * fx_scaled + fy_scaled * fy_scaled)
      if 1 < saturation then
        let scale := 1 / saturation
        ⟨Fx * scale, Fy * scale, Fx_pure, Fy_pure, 1⟩
      else
        ⟨Fx, Fy, Fx_pure, Fy_pure, saturation⟩

/-- The `method` strings accepted by `CombinedSlip.calculate`; any string
other than `"simple"` and `"vector"` selects the empirical default. -/
inductive CombinedMethod where
  | simple
  | vector
  | empirical
deriving DecidableEq

/-- `CombinedSlip.calculate(slip_ratio, slip_angle_deg, Fz, camber, method)`;
`math.radians` is multiplication by `π/180`. -/
noncomputable def CombinedSlip.calculate (cs : CombinedSlip)
    (slip_ratio slip_angle_deg Fz camber : ℝ)
    (method : CombinedMethod) : CombinedForces :=
  match method with
  | CombinedMethod.simple =>
      cs.combined_forces_simple slip_ratio slip_angle_deg Fz camber
  | CombinedMethod.vector =>
      cs.combined_forces_vector slip_ratio (Real.pi / 180 * slip_angle_deg) Fz camber
  | CombinedMethod.empirical =>
      cs.combined_forces_empirical slip_ratio slip_angle_deg Fz camber

theorem sq_add_sq_le_one_of_sqrt_le (a b : ℝ) (h : Real.sqrt (a * a + b * b) ≤ 1) :
    a ^ 2 + b ^ 2 ≤ 1 := by
  have h0 : 0 ≤ a * a + b * b := add_nonneg (mul_self_nonneg a) (mul_self_nonneg b)
  have hsq : Real.sqrt (a * a + b * b) ^ 2 = a * a + b * b := Real.sq_sqrt h0
  nlinarith [Real.sqrt_nonneg (a * a + b * b)]

theorem scaled_sq_add_sq_eq_one (a b : ℝ) (h : 1 < Real.sqrt (a * a + b * b)) :
    (a * (1 / Real.sqrt (a * a + b * b))) ^ 2
      + (b * (1 / Real.sqrt (a * a + b * b))) ^ 2 = 1 := by
  have h0 : 0 ≤ a * a + b * b := add_nonneg (mul_self_nonneg a) (mul_self_nonneg b)
  have hpos : 0 < Real.sqrt (a * a + b * b) := lt_trans one_pos h
  have hsq : Real.sqrt (a * a + b * b) ^ 2 = a * a + b * b := Real.sq_sqrt h0
  have hpos2 : 0 < a * a + b * b := by nlinarith
  have he : (a * (1 / Real.sqrt (a * a + b * b))) ^ 2
      + (b * (1 / Real.sqrt (a * a + b * b))) ^ 2
      = (a * a + b * b) / Real.sqrt (a * a + b * b) ^ 2 := by ring
  rw [he, hsq]
  exact div_self hpos2.ne'

/-- The final friction-ellipse clip of `combined_forces_simple`, in the exact
shape it takes after the peak guards are discharged. -/
theorem simple_clip_ellipse (A B P Q : ℝ) (hP : 0 < P) (hQ : 0 < Q) :
    ((if Real.sqrt (A / P * (A / P) + B / Q * (B / Q)) ≤ 1 then
        (⟨A, B, A, B, Real.sqrt (A / P * (A / P) + B / Q * (B / Q))⟩ : CombinedForces)
      else
        ⟨A * (1 / Real.sqrt (A / P * (A / P) + B / Q * (B / Q))),
          B * (1 / Real.sqrt (A / P * (A / P) + B / Q * (B / Q))), A, B, 1⟩).Fx / P) ^ 2
      + ((if Real.sqrt (A / P * (A / P) + B / Q * (B / Q)) ≤ 1 then
        (⟨A, B, A, B, Real.sqrt (A / P * (A / P) + B / Q * (B / Q))⟩ : CombinedForces)
      else
        ⟨A * (1 / Real.sqrt (A / P * (A / P) + B / Q * (B / Q))),
          B * (1 / Real.sqrt (A / P * (A / P) + B / Q * (B / Q))), A, B, 1⟩).Fy / Q) ^ 2
      ≤ 1 := by
  by_cases hs : Real.sqrt (A / P * (A / P) + B / Q * (B / Q)) ≤ 1
  · rw [if_pos hs]
    exact sq_add_sq_le_one_of_sqrt_le (A / P) (B / Q) hs
  · rw [if_neg hs]
    push_neg at hs
    have heq := scaled_sq_add_sq_eq_one (A / P) (B / Q) hs
    have hx : A * (1 / Real.sqrt (A / P * (A / P) + B / Q * (B / Q))) / P
        = A / P * (1 / Real.sqrt (A / P * (A / P) + B / Q * (B / Q))) := by ring
    have hy : B * (1 / Real.sqrt (A / P * (A / P) + B / Q * (B / Q))) / Q
        = B / Q * (1 / Real.sqrt (A / P * (A / P) + B / Q * (B / Q))) := by ring
    show (A * (1 / Real.sqrt (A / P * (A / P) + B / Q * (B / Q))) / P) ^ 2
        + (B * (1 / Real.sqrt (A / P * (A / P) + B / Q * (B / Q))) / Q) ^ 2 ≤ 1
    rw [hx, hy, heq]

/-- The final friction-ellipse clip of `combined_forces_empirical`. -/
theorem empirical_clip_ellipse (A B C D P Q : ℝ) (hP : 0 < P) (hQ : 0 < Q) :
    ((if 1 < Real.sqrt (A / P * (A / P) + B / Q * (B / Q)) then
        (⟨A * (1 / Real.sqrt (A / P * (A / P) + B / Q * (B / Q))),
          B * (1 / Real.sqrt (A / P * (A / P) + B / Q * (B / Q))), C, D, 1⟩ : CombinedForces)
      else
        ⟨A, B, C, D, Real.sqrt (A / P * (A / P) + B / Q * (B / Q))⟩).Fx / P) ^ 2
      + ((if 1 < Real.sqrt (A / P * (A / P) + B / Q * (B / Q)) then
        (⟨A * (1 / Real.sqrt (A / P * (A / P) + B / Q * (B / Q))),
          B * (1 / Real.sqrt (A / P * (A / P) + B / Q * (B / Q))), C, D, 1⟩ : CombinedForces)
      else
        ⟨A, B, C, D, Real.sqrt (A / P * (A / P) + B / Q * (B / Q))⟩).Fy / Q) ^ 2
      ≤ 1 := by
  by_cases hs : 1 < Real.sqrt (A / P * (A / P) + B / Q * (B / Q))
  · rw [if_pos hs]
    have heq := scaled_sq_add_sq_eq_one (A / P) (B / Q) hs
    have hx : A * (1 / Real.sqrt (A / P * (A / P) + B / Q * (B / Q))) / P
        = A / P * (1 / Real.sqrt (A / P * (A / P) + B / Q * (B / Q))) := by ring
    have hy : B * (1 / Real.sqrt (A / P * (A / P) + B / Q * (B / Q))) / Q
        = B / Q * (1 / Real.sqrt (A / P * (A / P) + B / Q * (B / Q))) := by ring
    show (A * (1 / Real.sqrt (A / P * (A / P) + B / Q * (B / Q))) / P) ^ 2
        + (B * (1 / Real.sqrt (A / P * (A / P) + B / Q * (B / Q))) / Q) ^ 2 ≤ 1
    rw [hx, hy, heq]
  · rw [if_neg hs]
    push_neg at hs
    exact sq_add_sq_le_one_of_sqrt_le (A / P) (B / Q) hs

/-- C1 amended: for the simple and empirical combined-slip methods (the
vector method violates the bound, see the counterexample), with friction
multiplier `μ = 1` (and the default `ellipse_ratio = 1`), every output
satisfies `(Fx/Fx_peak)² + (Fy/Fy_peak)² ≤ 1 + 1e-6` where the peaks are the
peak-search helpers' values at that load and camber. -/
theorem combined_slip_ellipse_bound (p : PacejkaParams)
    (method : CombinedMethod) (hm : method ≠ CombinedMethod.vector)
    (slip_ratio slip_angle_deg Fz camber : ℝ) :
    ((CombinedSlip.calculate ⟨p, 1, 1⟩ slip_ratio slip_angle_deg Fz camber method).Fx
        / PacejkaFormula.get_peak_longitudinal_force p Fz) ^ 2
      + ((CombinedSlip.calculate ⟨p, 1, 1⟩ slip_ratio slip_angle_deg Fz camber method).Fy
        / PacejkaFormula.get_peak_lateral_force p Fz camber) ^ 2
      ≤ 1 + 1e-6 := by
  have heps : (0 : ℝ) ≤ 1e-6 := by norm_num
  cases method with
  | vector => exact absurd rfl hm
  | simple =>
    simp only [CombinedSlip.calculate, CombinedSlip.combined_forces_simple, mul_one]
    by_cases hg : PacejkaFormula.get_peak_longitudinal_force p Fz < 1
        ∨ PacejkaFormula.get_peak_lateral_force p Fz camber < 1
    · rw [if_pos hg]
      norm_num
    · rw [if_neg hg]
      push_neg at hg
      have hP : 0 < PacejkaFormula.get_peak_longitudinal_force p Fz :=
        lt_of_lt_of_le one_pos hg.1
      have hQ : 0 < PacejkaFormula.get_peak_lateral_force p Fz camber :=
        lt_of_lt_of_le one_pos hg.2
      rw [if_pos hP, if_pos hQ]
      have := simple_clip_ellipse
        (PacejkaFormula.longitudinal_force p slip_ratio Fz)
        (PacejkaFormula.lateral_force p slip_angle_deg Fz camber)
        (PacejkaFormula.get_peak_longitudinal_force p Fz)
        (PacejkaFormula.get_peak_lateral_force p Fz camber) hP hQ
      linarith
  | empirical =>
    simp only [CombinedSlip.calculate, CombinedSlip.combined_forces_empirical, mul_one]
    by_cases hg : PacejkaFormula.get_peak_longitudinal_force p Fz < 1
        ∨ PacejkaFormula.get_peak_lateral_force p Fz camber < 1
    · rw [if_pos hg]
      norm_num
    · rw [if_neg hg]
      push_neg at hg
      have hP : 0 < PacejkaFormula.get_peak_longitudinal_force p Fz :=
        lt_of_lt_of_le one_pos hg.1
      have hQ : 0 < PacejkaFormula.get_peak_lateral_force p Fz camber :=
        lt_of_lt_of_le one_pos hg.2
      by_cases hz : |PacejkaFormula.longitudinal_force p slip_ratio Fz|
            / PacejkaFormula.get_peak_longitudinal_force p Fz
          + |PacejkaFormula.lateral_force p slip_angle_deg Fz camber|
            / PacejkaFormula.get_peak_lateral_force p Fz camber < 0.001
      · rw [if_pos hz]
        norm_num
      · rw [if_neg hz, if_pos hP, if_pos hQ]
        have := empirical_clip_ellipse
          (PacejkaFormula.longitudinal_force p slip_ratio Fz
            * Real.cos (atan2
                (|PacejkaFormula.lateral_force p slip_angle_deg Fz camber|
                  / PacejkaFormula.get_peak_lateral_force p Fz camber)
                (|PacejkaFormula.longitudinal_force p slip_ratio Fz|
                  / PacejkaFormula.get_peak_longitudinal_force p Fz) * 0.5))
          (PacejkaFormula.lateral_force p slip_angle_deg Fz camber
            * Real.cos ((Real.pi / 2 - atan2
                (|PacejkaFormula.lateral_force p slip_angle_deg Fz camber|
                  / PacejkaFormula.get_peak_lateral_force p Fz camber)
                (|PacejkaFormula.longitudinal_force p slip_ratio Fz|
                  / PacejkaFormula.get_peak_longitudinal_force p Fz)) * 0.5))
          (PacejkaFormula.longitudinal_force p slip_ratio Fz)
          (PacejkaFormula.lateral_force p slip_angle_deg Fz camber)
          (PacejkaFormula.get_peak_longitudinal_force p Fz)
          (PacejkaFormula.get_peak_lateral_force p Fz camber) hP hQ
        linarith

/-- C1 amended, witness: the empirical method at a concrete operating point
(sport tire, slip ratio 0.1, slip angle 3°, `Fz = 4000 N`, zero camber). -/
theorem combined_slip_ellipse_bound_witness :
    ((CombinedSlip.calculate ⟨PacejkaParams.sport_tire, 1, 1⟩ 0.1 3 4000 0
        CombinedMethod.empirical).Fx
        / PacejkaFormula.get_peak_longitudinal_force PacejkaParams.sport_tire 4000) ^ 2
      + ((CombinedSlip.calculate ⟨PacejkaParams.sport_tire, 1, 1⟩ 0.1 3 4000 0
        CombinedMethod.empirical).Fy
        / PacejkaFormula.get_peak_lateral_force PacejkaParams.sport_tire 4000 0) ^ 2
      ≤ 1 + 1e-6 :=
  combined_slip_ellipse_bound PacejkaParams.sport_tire CombinedMethod.empirical
    (by decide) 0.1 3 4000 0

theorem arctan_nonneg_of_nonneg (x : ℝ) (hx : 0 ≤ x) : 0 ≤ Real.arctan x := by
  rcases eq_or_lt_of_le hx with h | h
  · rw [← h, Real.arctan_zero]
  · exact (Real.arctan_zero ▸ Real.arctan_strictMono h).le

/-- Upper bound for the sport longitudinal curve shape at `Fz = 4000` over
the peak-search grid (`C = 1.65`, `D = 6752`, `E = -10`, no shifts): with
`B·(x+Sh) ≤ 0.04112`, the force is below 466 N. -/
theorem magic_long_upper (x B C D E Sh Sv : ℝ)
    (hw0 : 0 ≤ B * (x + Sh)) (hw1 : B * (x + Sh) ≤ 257 / 6250)
    (hC : C = 33 / 20) (hD : D = 6752) (hE : E = -10) (hSv : Sv = 0) :
    |magic_formula x B C D E Sh Sv| ≤ 466 := by
  subst hC hD hE hSv
  simp only [magic_formula]
  have hat := arctan_self_le (B * (x + Sh)) hw0
  have hat3 := sub_cube_le_arctan (B * (x + Sh)) hw0
  have hpsi0 : 0 ≤ B * (x + Sh) - -10 * (B * (x + Sh) - Real.arctan (B * (x + Sh))) := by
    nlinarith
  have hpsi1 : B * (x + Sh) - -10 * (B * (x + Sh) - Real.arctan (B * (x + Sh)))
      ≤ 257 / 6250 + 10 * (257 / 6250) ^ 3 := by
    have hcube : (B * (x + Sh)) ^ 3 ≤ (257 / 6250) ^ 3 := pow_le_pow_left hw0 hw1 3
    nlinarith
  have hatp := arctan_self_le _ hpsi0
  have hatn := arctan_nonneg_of_nonneg _ hpsi0
  have hth0 : 0 ≤ 33 / 20 * Real.arctan
      (B * (x + Sh) - -10 * (B * (x + Sh) - Real.arctan (B * (x + Sh)))) := by
    positivity
  have hthle : 33 / 20 * Real.arctan
      (B * (x + Sh) - -10 * (B * (x + Sh) - Real.arctan (B * (x + Sh))))
      ≤ 33 / 20 * (257 / 6250 + 10 * (257 / 6250) ^ 3) := by nlinarith
  have hsin0 : 0 ≤ Real.sin (33 / 20 * Real.arctan
      (B * (x + Sh) - -10 * (B * (x + Sh) - Real.arctan (B * (x + Sh))))) := by
    apply Real.sin_nonneg_of_nonneg_of_le_pi hth0
    nlinarith [Real.pi_gt_3141592]
  have hsinle : Real.sin (33 / 20 * Real.arctan
      (B * (x + Sh) - -10 * (B * (x + Sh) - Real.arctan (B * (x + Sh)))))
      ≤ 33 / 20 * Real.arctan
      (B * (x + Sh) - -10 * (B * (x + Sh) - Real.arctan (B * (x + Sh)))) :=
    Real.sin_le hth0
  rw [abs_of_nonneg (by positivity)]
  nlinarith

/-- The same shape is strictly positive wherever `B·(x+Sh) > 0`. -/
theorem magic_long_pos (x B C D E Sh Sv : ℝ) (hw0 : 0 < B * (x + Sh))
    (hC : C = 33 / 20) (hD : D = 6752) (hE : E = -10) (hSv : Sv = 0) :
    0 < magic_formula x B C D E Sh Sv := by
  subst hC hD hE hSv
  simp only [magic_formula]
  have hat := arctan_self_le (B * (x + Sh)) hw0.le
  have hpsi0 : 0 < B * (x + Sh) - -10 * (B * (x + Sh) - Real.arctan (B * (x + Sh))) := by
    nlinarith
  have hatp : 0 < Real.arctan
      (B * (x + Sh) - -10 * (B * (x + Sh) - Real.arctan (B * (x + Sh)))) :=
    Real.arctan_zero ▸ Real.arctan_strictMono hpsi0
  have hlt : Real.arctan
      (B * (x + Sh) - -10 * (B * (x + Sh) - Real.arctan (B * (x + Sh))))
      < Real.pi / 2 := Real.arctan_lt_pi_div_two _
  have hsin : 0 < Real.sin (33 / 20 * Real.arctan
      (B * (x + Sh) - -10 * (B * (x + Sh) - Real.arctan (B * (x + Sh))))) := by
    apply Real.sin_pos_of_pos_of_lt_pi
    · positivity
    · nlinarith [Real.pi_pos]
  nlinarith

/-- Lower bound for the sport lateral curve shape at `Fz = 4000` near its
plateau (`C = 1.3`, `D = 3690.4`, `E = -0.354`, `Sv = 59.222`): with
`B·(x+Sh)` in `[8.1, 8.2]` the force is at least 3300 N. -/
theorem magic_lat_lower (x B C D E Sh Sv : ℝ)
    (hw0 : 8.1 ≤ B * (x + Sh)) (hw1 : B * (x + Sh) ≤ 8.2)
    (hC : C = 13 / 10) (hD : D = 18452 / 5) (hE : E = -(177 / 500))
    (hSv : Sv = 29611 / 500) :
    3300 ≤ magic_formula x B C D E Sh Sv := by
  subst hC hD hE hSv
  simp only [magic_formula]
  set w := B * (x + Sh) with hw
  have hat0 : 0 ≤ Real.arctan w := arctan_nonneg_of_nonneg w (by linarith)
  have hatpi : Real.arctan w < Real.pi / 2 := Real.arctan_lt_pi_div_two w
  have hpi_lo := Real.pi_gt_3141592
  have hpi_hi := Real.pi_lt_3141593
  have hpsi_lo : (10.41 : ℝ) ≤ w - -(177 / 500) * (w - Real.arctan w) := by
    nlinarith
  set ψ := w - -(177 / 500) * (w - Real.arctan w) with hψ
  have hmono : Real.arctan (10.41 : ℝ) ≤ Real.arctan ψ :=
    Real.arctan_strictMono.monotone hpsi_lo
  have hinv : Real.arctan ((10.41 : ℝ)⁻¹) = Real.pi / 2 - Real.arctan 10.41 :=
    Real.arctan_inv_of_pos (by norm_num)
  have hinvle : Real.arctan ((10.41 : ℝ)⁻¹) ≤ (10.41 : ℝ)⁻¹ :=
    arctan_self_le _ (by norm_num)
  have hinvval : ((10.41 : ℝ)⁻¹) ≤ 0.09607 := by norm_num
  have harc_lo : Real.pi / 2 - (0.09607 : ℝ) ≤ Real.arctan ψ := by linarith
  have harc_hi : Real.arctan ψ < Real.pi / 2 := Real.arctan_lt_pi_div_two ψ
  have hdev1 : 13 / 10 * Real.arctan ψ - Real.pi / 2 ≤ 0.47124 := by linarith
  have hdev0 : 0 ≤ 13 / 10 * Real.arctan ψ - Real.pi / 2 := by linarith
  have hdevsq : (13 / 10 * Real.arctan ψ - Real.pi / 2) ^ 2 ≤ (0.47124 : ℝ) ^ 2 :=
    pow_le_pow_left hdev0 hdev1 2
  have hflip : (Real.pi / 2 - 13 / 10 * Real.arctan ψ) ^ 2
      = (13 / 10 * Real.arctan ψ - Real.pi / 2) ^ 2 := by ring
  have hcos : 1 - (Real.pi / 2 - 13 / 10 * Real.arctan ψ) ^ 2 / 2
      ≤ Real.cos (Real.pi / 2 - 13 / 10 * Real.arctan ψ) :=
    Real.one_sub_sq_div_two_le_cos
  have hsineq : Real.cos (Real.pi / 2 - 13 / 10 * Real.arctan ψ)
      = Real.sin (13 / 10 * Real.arctan ψ) := Real.cos_pi_div_two_sub _
  have hsin_lo : 1 - (0.47124 : ℝ) ^ 2 / 2 ≤ Real.sin (13 / 10 * Real.arctan ψ) := by
    rw [← hsineq]
    rw [hflip] at hcos
    linarith
  have hs : (0.888966 : ℝ) ≤ Real.sin (13 / 10 * Real.arctan ψ) := by
    norm_num at hsin_lo ⊢
    linarith
  linarith

/-- Each sampled sport longitudinal force at `Fz = 4000` is at most 466 N. -/
theorem sport_long_abs_le (sr : ℝ) (h0 : 0 ≤ sr) (h1 : sr ≤ 0.5) :
    |PacejkaFormula.longitudinal_force PacejkaParams.sport_tire sr 4000| ≤ 466 := by
  rw [PacejkaFormula.longitudinal_force, if_neg (by norm_num : ¬((4000:ℝ) ≤ 0))]
  simp only [PacejkaParams.sport_tire]
  norm_num
  rw [if_pos (by rw [abs_of_pos (by norm_num : (0:ℝ) < 55704 / 5)]; norm_num)]
  apply magic_long_upper _ _ _ _ _ _ _ ?_ ?_ rfl rfl rfl rfl
  · have h : (0:ℝ) ≤ 1145 / 13926 * sr := by positivity
    linarith [h]
  · rw [add_zero]
    rw [show (1145 : ℝ) / 13926 * sr = sr * (1145 / 13926) from by ring]
    nlinarith

/-- The sport longitudinal peak search at `Fz = 4000` returns at most 466 N. -/
theorem sport_peak_long_le :
    PacejkaFormula.get_peak_longitudinal_force PacejkaParams.sport_tire 4000 ≤ 466 := by
  unfold PacejkaFormula.get_peak_longitudinal_force
  apply foldr_max_le 466 (by norm_num)
  intro y hy
  rw [List.mem_map] at hy
  obtain ⟨z, hz, rfl⟩ := hy
  rw [linspace, List.mem_map] at hz
  obtain ⟨i, hi, rfl⟩ := hz
  rw [List.mem_range] at hi
  have hle : (i : ℝ) ≤ 199 := by
    have h199 : i ≤ 199 := by omega
    exact_mod_cast h199
  have hnn : (0:ℝ) ≤ (i : ℝ) := Nat.cast_nonneg i
  have hzval : (0:ℝ) + (0.5 - 0) * (i : ℝ) / ((200 : ℕ) - 1) = (i : ℝ) / 398 := by
    push_cast
    ring
  rw [hzval]
  apply sport_long_abs_le
  · positivity
  · rw [div_le_iff (by norm_num : (0:ℝ) < 398)]
    linarith

/-- The sport longitudinal peak search at `Fz = 4000` is strictly positive
(witnessed by the last grid sample, slip ratio 0.5). -/
theorem sport_peak_long_pos :
    0 < PacejkaFormula.get_peak_longitudinal_force PacejkaParams.sport_tire 4000 := by
  have h199 : (199 : ℕ) ∈ List.range 200 := List.mem_range.mpr (by norm_num)
  have hmem1 : ((0:ℝ) + (0.5 - 0) * ((199:ℕ) : ℝ) / (((200:ℕ) : ℝ) - 1))
      ∈ linspace 0 0.5 200 := by
    rw [linspace]
    exact List.mem_map_of_mem _ h199
  have hmem2 := List.mem_map_of_mem
    (fun sr => |PacejkaFormula.longitudinal_force PacejkaParams.sport_tire sr 4000|)
    hmem1
  have hval : ((0:ℝ) + (0.5 - 0) * ((199:ℕ) : ℝ) / (((200:ℕ) : ℝ) - 1)) = 0.5 := by
    push_cast
    norm_num
  rw [hval] at hmem2
  have hle := le_foldr_max _ _ hmem2
  have hpos : 0 < PacejkaFormula.longitudinal_force PacejkaParams.sport_tire 0.5 4000 := by
    rw [PacejkaFormula.longitudinal_force, if_neg (by norm_num : ¬((4000:ℝ) ≤ 0))]
    simp only [PacejkaParams.sport_tire]
    norm_num
    rw [if_pos (by rw [abs_of_pos (by norm_num : (0:ℝ) < 55704 / 5)]; norm_num)]
    apply magic_long_pos _ _ _ _ _ _ _ ?_ rfl rfl rfl rfl
    rw [add_zero]
    norm_num
  have habs : 0 < |PacejkaFormula.longitudinal_force PacejkaParams.sport_tire 0.5 4000| :=
    lt_of_lt_of_le hpos (le_abs_self _)
  exact lt_of_lt_of_le habs hle

/-- The sport lateral force at slip angle 45°, `Fz = 4000`, no camber, is at
least 3300 N: the vector slip method evaluates the lateral curve here when
fed pure longitudinal slip `sr = 1`. -/
theorem sport_lat_45_ge :
    (3300:ℝ) ≤ PacejkaFormula.lateral_force PacejkaParams.sport_tire 45 4000 0 := by
  rw [PacejkaFormula.lateral_force, if_neg (by norm_num : ¬((4000:ℝ) ≤ 0))]
  simp only [PacejkaParams.sport_tire]
  norm_num [copysign]
  rw [sin_two_arctan]
  rw [if_pos (by rw [abs_of_pos (by norm_num : (0:ℝ) < 119938 / 25)]; norm_num)]
  apply magic_lat_lower _ _ _ _ _ _ _ ?_ ?_ rfl rfl rfl rfl
  · norm_num
  · norm_num

/-- Evaluation of the vector combined-slip method at pure longitudinal slip
`sr = 1` (slip angle 0), sport tire, `Fz = 4000`, `μ = 1`: it returns the
whole lateral-curve magnitude at the equivalent angle 45° as `Fx`, and 0 as
`Fy`. -/
theorem sport_vector_eval :
    (CombinedSlip.calculate ⟨PacejkaParams.sport_tire, 1, 1⟩ 1 0 4000 0
        CombinedMethod.vector).Fx
      = |PacejkaFormula.lateral_force PacejkaParams.sport_tire 45 4000 0|
    ∧ (CombinedSlip.calculate ⟨PacejkaParams.sport_tire, 1, 1⟩ 1 0 4000 0
        CombinedMethod.vector).Fy = 0 := by
  have hpi := Real.pi_ne_zero
  simp only [CombinedSlip.calculate, CombinedSlip.combined_forces_vector, mul_zero]
  rw [if_pos (by norm_num : |(0:ℝ)| < 1.5)]
  rw [Real.tan_zero]
  rw [show (1:ℝ) * 1 + 0 * 0 = 1 from by norm_num, Real.sqrt_one]
  rw [if_neg (by norm_num : ¬((1:ℝ) < 1e-6)), if_pos (by norm_num : (1e-6:ℝ) < 1)]
  rw [Real.arctan_one]
  rw [show 180 / Real.pi * (Real.pi / 4) = (45:ℝ) from by field_simp; ring]
  simp only [copysign, mul_one, div_one, zero_div, mul_zero]
  rw [if_neg (by norm_num : ¬((1:ℝ) < 0)), if_neg (lt_irrefl (0:ℝ))]
  exact ⟨abs_abs _, by rw [if_pos (by norm_num : (1e-6:ℝ) < 1)]; exact abs_zero⟩

/-- C1 counterexample: the vector combined-slip method with `μ = 1` (sport
tire, slip ratio 1, slip angle 0°, `Fz = 4000 N`, no camber) returns
`Fx = |lateral(45°)| ≥ 3300 N` while the longitudinal peak helper returns at
most 466 N, so `(Fx/Fx_peak)² + (Fy/Fy_peak)² ≥ (3300/466)² ≈ 50`, far above
`1 + 1e-6`. -/
theorem vector_method_breaks_friction_ellipse :
    1 + 1e-6 < ((CombinedSlip.calculate ⟨PacejkaParams.sport_tire, 1, 1⟩ 1 0 4000 0
          CombinedMethod.vector).Fx
        / PacejkaFormula.get_peak_longitudinal_force PacejkaParams.sport_tire 4000) ^ 2
      + ((CombinedSlip.calculate ⟨PacejkaParams.sport_tire, 1, 1⟩ 1 0 4000 0
          CombinedMethod.vector).Fy
        / PacejkaFormula.get_peak_lateral_force PacejkaParams.sport_tire 4000 0) ^ 2 := by
  obtain ⟨hFx, hFy⟩ := sport_vector_eval
  rw [hFx, hFy, zero_div]
  have h1 : (3300:ℝ)
      ≤ |PacejkaFormula.lateral_force PacejkaParams.sport_tire 45 4000 0| :=
    le_trans sport_lat_45_ge (le_abs_self _)
  have hdiv : (3300:ℝ) / 466
      ≤ |PacejkaFormula.lateral_force PacejkaParams.sport_tire 45 4000 0|
        / PacejkaFormula.get_peak_longitudinal_force PacejkaParams.sport_tire 4000 :=
    div_le_div (abs_nonneg _) h1 sport_peak_long_pos sport_peak_long_le
  have hsq : ((3300:ℝ) / 466) ^ 2
      ≤ (|PacejkaFormula.lateral_force PacejkaParams.sport_tire 45 4000 0|
        / PacejkaFormula.get_peak_longitudinal_force PacejkaParams.sport_tire 4000) ^ 2 :=
    pow_le_pow_left (by norm_num) hdiv 2
  have hnum : (1:ℝ) + 1e-6 < ((3300:ℝ) / 466) ^ 2 := by norm_num
  nlinarith [hsq, hnum]

/-- C9: after every integration step — whatever the accumulated forces,
torque, initial yaw and `dt` — the body yaw lies in `[-π, π]` and both
accumulators are cleared. -/
theorem integrate_yaw_normalized_accumulators_cleared (b : RigidBody) (dt : ℝ) :
    (-Real.pi ≤ (b.integrate dt).orientation
      ∧ (b.integrate dt).orientation ≤ Real.pi)
    ∧ (b.integrate dt).force = ⟨0, 0, 0⟩
    ∧ (b.integrate dt).torque = 0 := by
  exact ⟨normalize_angle_mem _, rfl, rfl⟩

end PhysicsKit
